import Mathlib

/-!
Verification of the resilience layer of foodie-finder:
`CacheManager` and `PerformanceMonitor` (src/utils/util.js) and
`APIPerformanceOptimizer` (the performance-optimization module).

The JavaScript code is shallowly embedded: each mutable singleton becomes an
explicit state value threaded through the operations, `Date.now()` readings
become explicit time parameters, and the asynchronous race of an attempt
against its timeout is abstracted into a per-attempt outcome function
(a timeout is just one more failed-attempt error).  JS `Map`s and the wx
key/value storage are modelled as association lists with insertion-order
`set` semantics.  Storage in the model never throws, matching executions in
which the platform store works; the catch-branches of util.js only matter on
platform failure and are outside every claim.
-/

/-- JavaScript values, as far as truthiness and equality are concerned. -/
inductive JSVal where
  | vNull : JSVal
  | vBool : Bool → JSVal
  | vNum : Int → JSVal
  | vStr : String → JSVal
  | vObj : Nat → JSVal
deriving DecidableEq, Repr

/-- JS truthiness: null, false, 0 and the empty string are falsy. -/
def JSVal.truthy : JSVal → Bool
  | .vNull => false
  | .vBool b => b
  | .vNum n => n != 0
  | .vStr s => s != ""
  | .vObj _ => true

/-- Lookup in an association list (JS Map.get / keyed storage read). -/
def alGet {β : Type} : List (String × β) → String → Option β
  | [], _ => none
  | (k, v) :: t, key => if k = key then some v else alGet t key

/-- Update in an association list, replacing in place or appending
(JS Map.set / keyed storage write). -/
def alSet {β : Type} : List (String × β) → String → β → List (String × β)
  | [], key, v => [(key, v)]
  | (k, w) :: t, key, v => if k = key then (key, v) :: t else (k, w) :: alSet t key v

/-- Deletion from an association list (JS Map.delete / removeStorageSync). -/
def alDel {β : Type} (l : List (String × β)) (key : String) : List (String × β) :=
  l.filter (fun kv => kv.1 != key)

/-- A stored cache record as written by CacheManager.set in util.js:
`{data, timestamp, expireTime, compressed, priority, accessCount, lastAccess}`.
Every modelled call site uses the default `compress = false`, so the payload
is stored unencoded and the JSON stringify/parse round trip never runs. -/
structure CacheEntry (α : Type) where
  data : α
  timestamp : Nat
  expireTime : Nat
  compressed : Bool
  priority : String
  accessCount : Nat
  lastAccess : Nat
deriving DecidableEq, Repr

/-- The CacheManager singleton state: the wx storage contents (all keys,
cache-owned or not), the hit/miss/set/remove counters, and the storage
usage figures that wx.getStorageInfoSync reports (owned by the platform,
carried here as ambient values). -/
structure CacheState (α : Type) where
  entries : List (String × CacheEntry α)
  hits : Nat
  misses : Nat
  sets : Nat
  removes : Nat
  currentSize : Nat
  limitSize : Nat
deriving Repr

namespace CacheManager

/-- CacheManager.PREFIX in util.js. -/
def cachePre : String := "foodiefinder_cache_"

/-- CacheManager.DEFAULT_EXPIRE_TIME : 24 hours in milliseconds. -/
def DEFAULT_EXPIRE_TIME : Nat := 24 * 60 * 60 * 1000

/-- checkStorageSpace: used/limit below 80 percent.  The float comparison
`currentSize / limitSize < 0.8` is the exact rational test 5·used < 4·limit. -/
def checkStorageSpace {α : Type} (s : CacheState α) : Bool :=
  5 * s.currentSize < 4 * s.limitSize

/-- remove(key): delete from storage, count the removal, return true. -/
def remove {α : Type} (s : CacheState α) (key : String) : Bool × CacheState α :=
  (true, { s with entries := alDel s.entries (cachePre ++ key),
                  removes := s.removes + 1 })

/-- The priority weight map `{low:1, normal:2, high:3}` with the JS
`priorityWeight[p] || 2` fallback to 2 for any other string. -/
def priorityWeight (p : String) : Nat :=
  if p = "low" then 1 else if p = "normal" then 2 else if p = "high" then 3 else 2

/-- The projection of a stored item that cleanupByPriority sorts on:
its full storage key, its priority weight and its access count. -/
structure Item where
  key : String
  w : Nat
  accessCount : Nat
deriving DecidableEq, Repr

/-- The total preorder induced by the cleanup comparator: ascending priority
weight, ties by ascending access count. -/
def ItemLE (a b : Item) : Prop :=
  a.w < b.w ∨ (a.w = b.w ∧ a.accessCount ≤ b.accessCount)

instance : DecidableRel ItemLE := fun a b => by
  unfold ItemLE; infer_instance

instance : IsTotal Item ItemLE where
  total a b := by
    unfold ItemLE
    rcases Nat.lt_trichotomy a.w b.w with h | h | h
    · exact Or.inl (Or.inl h)
    · rcases Nat.le_total a.accessCount b.accessCount with h2 | h2
      · exact Or.inl (Or.inr ⟨h, h2⟩)
      · exact Or.inr (Or.inr ⟨h.symm, h2⟩)
    · exact Or.inr (Or.inl h)

instance : IsTrans Item ItemLE where
  trans a b c hab hbc := by
    unfold ItemLE at *
    rcases hab with h1 | ⟨e1, l1⟩
    · rcases hbc with h2 | ⟨e2, _⟩
      · exact Or.inl (h1.trans h2)
      · exact Or.inl (e2 ▸ h1)
    · rcases hbc with h2 | ⟨e2, l2⟩
      · exact Or.inl (e1 ▸ h2)
      · exact Or.inr ⟨e1.trans e2, l1.trans l2⟩

/-- cleanupByPriority, first phase: collect every cache-owned entry under its
sort projection, in storage-key order. -/
def collectItems {α : Type} (entries : List (String × CacheEntry α)) : List Item :=
  entries.filterMap (fun kv =>
    if kv.1.startsWith cachePre then
      some { key := kv.1, w := priorityWeight kv.2.priority, accessCount := kv.2.accessCount }
    else none)

/-- cleanupByPriority: sort the cache items by the comparator and delete the
first 30 percent (`Math.floor(length * 0.3)`, which is `3·length / 10` in
exact arithmetic), counting each deletion. -/
def cleanupByPriority {α : Type} (s : CacheState α) : CacheState α :=
  let items := collectItems s.entries
  let sorted := List.insertionSort ItemLE items
  let deleteCount := items.length * 3 / 10
  let victims := (sorted.take deleteCount).map Item.key
  { s with entries := s.entries.filter (fun kv => !victims.contains kv.1),
           removes := s.removes + deleteCount }

/-- set(key, data, expireTime, opts): run the priority cleanup when storage is
above 80 percent, then write the fresh record and count the set.  All modelled
call sites leave `compress` at its default false. -/
def set {α : Type} (s : CacheState α) (key : String) (data : α) (expireTime : Nat)
    (priority : String) (now : Nat) : Bool × CacheState α :=
  let s1 := if checkStorageSpace s then s else cleanupByPriority s
  let entry : CacheEntry α :=
    { data := data, timestamp := now, expireTime := expireTime,
      compressed := false, priority := priority, accessCount := 0, lastAccess := now }
  (true, { s1 with entries := alSet s1.entries (cachePre ++ key) entry,
                   sets := s1.sets + 1 })

/-- get(key): absent → miss; expired (`now - timestamp > expireTime`) →
remove the entry and miss; otherwise bump the access fields and hit.  The
source defers the access-field write through `setTimeout(…, 0)`; the model
applies it at once, which no claim distinguishes on the single logical
thread. -/
def get {α : Type} (s : CacheState α) (key : String) (now : Nat) :
    Option α × CacheState α :=
  match alGet s.entries (cachePre ++ key) with
  | none => (none, { s with misses := s.misses + 1 })
  | some e =>
    if now - e.timestamp > e.expireTime then
      let s1 := (remove s key).2
      (none, { s1 with misses := s1.misses + 1 })
    else
      let e1 := { e with accessCount := e.accessCount + 1, lastAccess := now }
      (some e.data,
       { s with entries := alSet s.entries (cachePre ++ key) e1,
                hits := s.hits + 1 })

/-- clear(): remove every storage key that carries the cache prefix, counting
each removal; always succeeds. -/
def clear {α : Type} (s : CacheState α) : Bool × CacheState α :=
  let victims := (s.entries.map Prod.fst).filter (fun k => k.startsWith cachePre)
  (true, { s with entries := s.entries.filter (fun kv => !kv.1.startsWith cachePre),
                  removes := s.removes + victims.length })

end CacheManager

/-- A PerformanceMonitor in-flight record (the wx system-info snapshot the
source tucks into `memoryUsage` is platform metadata no claim reads and is
omitted). -/
structure PMRecord where
  startTime : Nat
  endTime : Option Nat
  duration : Option Int
deriving DecidableEq, Repr

/-- A bounded slow/fast operation log line. -/
structure PMOpLine where
  name : String
  duration : Int
  timestamp : Nat
deriving DecidableEq, Repr

/-- PerformanceMonitor.stats. -/
structure PMStats where
  totalOperations : Nat
  averageTime : ℚ
  slowOperations : List PMOpLine
  fastOperations : List PMOpLine
deriving DecidableEq, Repr

/-- The PerformanceMonitor singleton state. -/
structure MonitorState where
  records : List (String × PMRecord)
  stats : PMStats
deriving DecidableEq, Repr

namespace PerformanceMonitor

/-- start(name): open (or overwrite) the in-flight record for `name`. -/
def pmStart (m : MonitorState) (name : String) (now : Nat) : MonitorState :=
  let r : PMRecord := { startTime := now, endTime := none, duration := none }
  { m with records := alSet m.records name r }

/-- JS `list.slice(-n)`: the last `n` elements. -/
def keepLast {β : Type} (n : Nat) (l : List β) : List β :=
  l.drop (l.length - n)

/-- updateStats: count the operation, fold its duration into the running
average `avg := (avg·(n-1) + duration)/n`, and log it in the bounded
fast list when it ran under 1000 ms. -/
def updateStats (st : PMStats) (name : String) (dur : Int) (started : Nat) : PMStats :=
  let n := st.totalOperations + 1
  let totalTime : ℚ := st.averageTime * (n - 1 : ℕ) + (dur : ℚ)
  let st1 := { st with totalOperations := n, averageTime := totalTime / (n : ℕ) }
  if dur < 1000 then
    let line : PMOpLine := { name := name, duration := dur, timestamp := started }
    let fast := st1.fastOperations ++ [line]
    { st1 with fastOperations := if fast.length > 50 then keepLast 50 fast else fast }
  else st1

/-- end(name), renamed pmEnd (`end` is a Lean keyword): no matching start →
warn and return 0; otherwise close the record, update the aggregate stats,
log a slow operation when over 5000 ms, and return the measured duration. -/
def pmEnd (m : MonitorState) (name : String) (now : Nat) : Int × MonitorState :=
  match alGet m.records name with
  | none => (0, m)
  | some r =>
    let dur : Int := (now : Int) - (r.startTime : Int)
    let r1 := { r with endTime := some now, duration := some dur }
    let st1 := updateStats m.stats name dur r.startTime
    let st2 :=
      if dur > 5000 then
        let line : PMOpLine := { name := name, duration := dur, timestamp := r.startTime }
        let slow := st1.slowOperations ++ [line]
        { st1 with slowOperations := if slow.length > 20 then keepLast 20 slow else slow }
      else st1
    (dur, { records := alSet m.records name r1, stats := st2 })

end PerformanceMonitor

/-- Circuit-breaker states. -/
inductive BState where
  | closed : BState
  | open : BState
  | halfOpen : BState
deriving DecidableEq, Repr

/-- One per-API breaker record, as created by updateCircuitBreaker. -/
structure Breaker where
  failureCount : Nat
  lastFailTime : Nat
  state : BState
  threshold : Nat
  cooldownTime : Nat
deriving DecidableEq, Repr

/-- The fresh breaker updateCircuitBreaker installs on first failure:
threshold 5, one-minute cooldown. -/
def Breaker.fresh : Breaker :=
  { failureCount := 0, lastFailTime := 0, state := .closed,
    threshold := 5, cooldownTime := 60000 }

/-- The breaker registry `this.circuitBreaker : Map`. -/
def BreakerReg : Type := List (String × Breaker)

namespace APIPerformanceOptimizer

/-- isCircuitBreakerOpen: no breaker → false; an open breaker whose cooldown
has elapsed (`now - lastFailTime > cooldownTime`) flips to half-open and
reports false; otherwise report whether the breaker is open.  The method
mutates the registry, so it returns the answer with the new registry. -/
def isCircuitBreakerOpen (reg : BreakerReg) (apiName : String) (now : Nat) :
    Bool × BreakerReg :=
  match alGet reg apiName with
  | none => (false, reg)
  | some b =>
    if b.state = .open ∧ now - b.lastFailTime > b.cooldownTime then
      (false, alSet reg apiName { b with state := .halfOpen })
    else (b.state = .open, reg)

/-- updateCircuitBreaker: install a fresh breaker if none, then count the
failure, stamp its time, and trip to open at the threshold. -/
def updateCircuitBreaker (reg : BreakerReg) (apiName : String) (now : Nat) :
    BreakerReg :=
  let reg1 := match alGet reg apiName with
    | none => alSet reg apiName Breaker.fresh
    | some _ => reg
  match alGet reg1 apiName with
  | none => reg1
  | some b =>
    let b1 := { b with failureCount := b.failureCount + 1, lastFailTime := now }
    let b2 := if b1.failureCount ≥ b1.threshold then { b1 with state := .open } else b1
    alSet reg1 apiName b2

/-- resetCircuitBreaker: on success, an existing breaker is reset to closed
with zero failures (its last-failure stamp is left in place). -/
def resetCircuitBreaker (reg : BreakerReg) (apiName : String) : BreakerReg :=
  match alGet reg apiName with
  | none => reg
  | some b => alSet reg apiName { b with failureCount := 0, state := .closed }

end APIPerformanceOptimizer

/-- What one retry attempt observably did: the result the `Promise.race` of
the operation against the per-attempt timeout settled with (a timeout is the
error '调用超时'), the number of times `apiFunction()` was invoked, and the
backoff delays slept between attempts. -/
structure RetryResult (α : Type) where
  result : Except String α
  calls : Nat
  delays : List Nat
deriving Repr

namespace APIPerformanceOptimizer

/-- The backoff delay slept after failed attempt `i`:
`Math.min(1000 * Math.pow(2, i), 5000)`. -/
def backoffDelay (i : Nat) : Nat := min (1000 * 2 ^ i) 5000

/-- The loop body of executeWithRetry: attempt index `i`, with
`remaining` attempts still allowed (the JS loop runs `i = 0 … retryCount`).
On failure with attempts remaining, sleep the backoff delay and move on;
the error surfaced at exhaustion is the last attempt's. -/
def runRetry {α : Type} (attempts : Nat → Except String α) (i : Nat) :
    Nat → RetryResult α
  | 0 => { result := .error "", calls := 0, delays := [] }
  | remaining + 1 =>
    match attempts i with
    | .ok v => { result := .ok v, calls := 1, delays := [] }
    | .error e =>
      if remaining = 0 then { result := .error e, calls := 1, delays := [] }
      else
        let rest := runRetry attempts (i + 1) remaining
        { result := rest.result, calls := rest.calls + 1,
          delays := backoffDelay i :: rest.delays }

/-- executeWithRetry(apiFunction, retryCount, timeout): up to `retryCount + 1`
attempts.  The race of `apiFunction()` against the `timeout` timer is
abstracted into the per-attempt outcome function `attempts`, so the timeout
parameter itself carries no further information here. -/
def executeWithRetry {α : Type} (attempts : Nat → Except String α)
    (retryCount : Nat) : RetryResult α :=
  runRetry attempts 0 (retryCount + 1)

end APIPerformanceOptimizer

/-- One line of `this.apiMetrics`: response time, outcome, optional error
message, timestamp. -/
structure APIMetric where
  responseTime : Int
  success : Bool
  error : Option String
  timestamp : Nat
deriving Repr

/-- The whole mutable state optimizeAPICall touches: the CacheManager and
PerformanceMonitor singletons it imports from util.js, plus the optimizer's
own breaker registry and metrics map. -/
structure SysState where
  cache : CacheState JSVal
  breakers : BreakerReg
  monitor : MonitorState
  apiMetrics : List (String × List APIMetric)

/-- The observable outcome of one optimizeAPICall: the settled value or the
propagated error, how many times the supplied operation was invoked, whether
the answer came from the cache, the backoff delays slept, and the state
afterwards. -/
structure InvokeResult where
  result : Except String JSVal
  opCalls : Nat
  usedCache : Bool
  delays : List Nat
  state : SysState

namespace APIPerformanceOptimizer

/-- recordAPIMetrics: append the sample for the API, keeping the last 100. -/
def recordAPIMetrics (metrics : List (String × List APIMetric))
    (apiName : String) (m : APIMetric) : List (String × List APIMetric) :=
  let old := (alGet metrics apiName).getD []
  let l := old ++ [m]
  let l1 := if l.length > 100 then l.drop (l.length - 100) else l
  alSet metrics apiName l1

/-- The circuit-open error message thrown by optimizeAPICall. -/
def circuitOpenMsg (apiName : String) : String :=
  "API " ++ apiName ++ " 熔断器开启，暂时不可用"

/-- Options of optimizeAPICall with their defaults.  The source name for the
retry budget is `retryCount` (the spec calls it maxRetries). -/
structure Options where
  timeout : Nat := 5000
  retryCount : Nat := 3
  cacheEnabled : Bool := true
  circuitBreakerEnabled : Bool := true

/-- The tail of optimizeAPICall once the breaker check has passed and the
cache yielded nothing truthy: run the retried operation, then on success
close the monitor record, log the metric, cache a truthy result for five
minutes and reset the breaker; on failure close the monitor record, log the
metric and (when breaker use is enabled) record the failure in the breaker.
`t0` is the Date.now() read at entry, `tEnd` the read when the call settles. -/
def execPhase (s : SysState) (apiName : String)
    (attempts : Nat → Except String JSVal) (opts : Options)
    (t0 tEnd : Nat) : InvokeResult :=
  let key := "api_" ++ apiName
  let r := executeWithRetry attempts opts.retryCount
  match r.result with
  | .ok v =>
    let mon1 := (PerformanceMonitor.pmEnd s.monitor key tEnd).2
    let sample : APIMetric :=
      { responseTime := (tEnd : Int) - (t0 : Int), success := true,
        error := none, timestamp := tEnd }
    let met1 := recordAPIMetrics s.apiMetrics apiName sample
    let cache1 :=
      if opts.cacheEnabled && v.truthy then
        (CacheManager.set s.cache key v (5 * 60 * 1000) "normal" tEnd).2
      else s.cache
    let brk1 := resetCircuitBreaker s.breakers apiName
    { result := .ok v, opCalls := r.calls, usedCache := false, delays := r.delays,
      state := { cache := cache1, breakers := brk1, monitor := mon1, apiMetrics := met1 } }
  | .error e =>
    let mon1 := (PerformanceMonitor.pmEnd s.monitor key tEnd).2
    let sample : APIMetric :=
      { responseTime := (tEnd : Int) - (t0 : Int), success := false,
        error := some e, timestamp := tEnd }
    let met1 := recordAPIMetrics s.apiMetrics apiName sample
    let brk1 :=
      if opts.circuitBreakerEnabled then updateCircuitBreaker s.breakers apiName tEnd
      else s.breakers
    { result := .error e, opCalls := r.calls, usedCache := false, delays := r.delays,
      state := { cache := s.cache, breakers := brk1, monitor := mon1, apiMetrics := met1 } }

/-- optimizeAPICall(apiName, apiFunction, options): start the monitor, check
the breaker (short-circuited away when disabled — the half-open transition
then never runs), fail fast with the circuit-open error if it is open (that
throw lands in the catch block, which closes the monitor record, logs the
metric and feeds the failure back into the breaker), otherwise consult the
cache and return a truthy cached value as-is, else execute with retry. -/
def optimizeAPICall (s : SysState) (apiName : String)
    (attempts : Nat → Except String JSVal) (opts : Options)
    (t0 tEnd : Nat) : InvokeResult :=
  let key := "api_" ++ apiName
  let mon0 := PerformanceMonitor.pmStart s.monitor key t0
  let checked :=
    if opts.circuitBreakerEnabled then isCircuitBreakerOpen s.breakers apiName t0
    else (false, s.breakers)
  let s0 : SysState :=
    { cache := s.cache, breakers := checked.2, monitor := mon0, apiMetrics := s.apiMetrics }
  if checked.1 then
    let e := circuitOpenMsg apiName
    let mon1 := (PerformanceMonitor.pmEnd s0.monitor key tEnd).2
    let sample : APIMetric :=
      { responseTime := (tEnd : Int) - (t0 : Int), success := false,
        error := some e, timestamp := tEnd }
    let met1 := recordAPIMetrics s0.apiMetrics apiName sample
    let brk1 :=
      if opts.circuitBreakerEnabled then updateCircuitBreaker s0.breakers apiName tEnd
      else s0.breakers
    { result := .error e, opCalls := 0, usedCache := false, delays := [],
      state := { cache := s0.cache, breakers := brk1, monitor := mon1, apiMetrics := met1 } }
  else
    let looked :=
      if opts.cacheEnabled then CacheManager.get s0.cache key t0
      else (none, s0.cache)
    let s1 : SysState := { s0 with cache := looked.2 }
    match looked.1 with
    | some v =>
      if v.truthy then
        { result := .ok v, opCalls := 0, usedCache := true, delays := [], state := s1 }
      else execPhase s1 apiName attempts opts t0 tEnd
    | none => execPhase s1 apiName attempts opts t0 tEnd

end APIPerformanceOptimizer

/-! ### Concrete states used by the witness theorems -/

/-- The empty monitor, starting point of the C8 witness scenario. -/
def pmW0 : MonitorState :=
  { records := [],
    stats := { totalOperations := 0, averageTime := 0,
               slowOperations := [], fastOperations := [] } }

/-- C8 witness scenario: durations 100 ms and 200 ms already recorded, a
third measurement of 300 ms in flight. -/
def pmW5 : MonitorState :=
  PerformanceMonitor.pmStart
    ((PerformanceMonitor.pmEnd
      (PerformanceMonitor.pmStart
        ((PerformanceMonitor.pmEnd
          (PerformanceMonitor.pmStart pmW0 "op" 0) "op" 100).2) "op" 1000) "op" 1200).2)
    "op" 2000

/-- The concrete expired entry used to witness C6. -/
def c6E : CacheEntry JSVal :=
  { data := .vNum 5, timestamp := 100, expireTime := 50, compressed := false,
    priority := "normal", accessCount := 0, lastAccess := 100 }

/-- The concrete cache state used to witness C6: one entry written at 100 ms
with a 50 ms time-to-live. -/
def c6W : CacheState JSVal :=
  { entries := [(CacheManager.cachePre ++ "k", c6E)],
    hits := 0, misses := 0, sets := 0, removes := 0, currentSize := 0, limitSize := 100 }

namespace APIPerformanceOptimizer

/-- The breaker tripped open at 1000000 ms, used by the C1 counterexample. -/
def c1Brk : Breaker := ⟨5, 1000000, .open, 5, 60000⟩

/-- A valid (unexpired, truthy) cached value for the key api_Y, written at
1000000 ms with a 300000 ms time-to-live. -/
def c1Entry : CacheEntry JSVal :=
  { data := .vStr "cached", timestamp := 1000000, expireTime := 300000,
    compressed := false, priority := "normal", accessCount := 0, lastAccess := 1000000 }

/-- C1 counterexample state: breaker for Y open inside its cooldown while a
valid cache entry for api_Y exists. -/
def c1Sys : SysState :=
  { cache := { entries := [(CacheManager.cachePre ++ "api_Y", c1Entry)],
               hits := 0, misses := 0, sets := 0, removes := 0,
               currentSize := 0, limitSize := 100 },
    breakers := [("Y", c1Brk)],
    monitor := pmW0,
    apiMetrics := [] }

/-- The C1 witness state: same valid cache entry for api_Y, no breaker. -/
def c1SysB : SysState :=
  { cache := { entries := [(CacheManager.cachePre ++ "api_Y", c1Entry)],
               hits := 0, misses := 0, sets := 0, removes := 0,
               currentSize := 0, limitSize := 100 },
    breakers := [],
    monitor := pmW0,
    apiMetrics := [] }

/-- The state used by the C3 witness: breaker for X tripped open at 100 ms,
empty cache store. -/
def c3W : SysState :=
  { cache := { entries := [], hits := 0, misses := 0, sets := 0, removes := 0,
               currentSize := 0, limitSize := 100 },
    breakers := [("X", ⟨5, 100, .open, 5, 60000⟩)],
    monitor := pmW0,
    apiMetrics := [] }

/-- The open breaker used in the C4 witness: tripped at 100 ms. -/
def c4W : SysState :=
  { cache := { entries := [], hits := 0, misses := 0, sets := 0, removes := 0,
               currentSize := 0, limitSize := 100 },
    breakers := [("X", ⟨5, 100, .open, 5, 60000⟩)],
    monitor := pmW0,
    apiMetrics := [] }

/-- The C5/C9 style base state: empty cache store, no breakers. -/
def c5W : SysState :=
  { cache := { entries := [], hits := 0, misses := 0, sets := 0, removes := 0,
               currentSize := 0, limitSize := 100 },
    breakers := [],
    monitor := pmW0,
    apiMetrics := [] }

/-- The operation of the C5 witness: fails twice, then succeeds with 7. -/
def c5A : Nat → Except String JSVal :=
  fun j => if j = 0 then .error "e0" else if j = 1 then .error "e1" else .ok (.vNum 7)

/-- The always-failing operation of the C2 witness. -/
def c2fail : Nat → Except String JSVal := fun _ => .error "boom"

/-- The state after the five failing C2-witness invokes at times 10…50. -/
def c2s5 : SysState :=
  (optimizeAPICall ((optimizeAPICall ((optimizeAPICall ((optimizeAPICall ((optimizeAPICall
    c5W "X" c2fail {} 10 10).state) "X" c2fail {} 20 20).state) "X" c2fail {} 30
    30).state) "X" c2fail {} 40 40).state) "X" c2fail {} 50 50).state

end APIPerformanceOptimizer

/-! ### Association-list and filter lemmas -/

theorem alGet_alSet_self {β : Type} (l : List (String × β)) (k : String) (v : β) :
    alGet (alSet l k v) k = some v := by
  induction l with
  | nil => simp [alGet, alSet]
  | cons hd t ih =>
    by_cases h : hd.1 = k
    · simp [alSet, alGet, h]
    · simp [alSet, alGet, h, ih]

theorem alSet_alSet {β : Type} (l : List (String × β)) (k : String) (v w : β) :
    alSet (alSet l k v) k w = alSet l k w := by
  induction l with
  | nil => simp [alSet]
  | cons hd t ih =>
    by_cases h : hd.1 = k
    · simp [alSet, h]
    · simp [alSet, h, ih]

theorem alGet_alDel_self {β : Type} (l : List (String × β)) (k : String) :
    alGet (alDel l k) k = none := by
  induction l with
  | nil => simp [alDel, alGet]
  | cons hd t ih =>
    by_cases h : hd.1 = k
    · simpa [alDel, List.filter_cons, h] using ih
    · simpa [alDel, List.filter_cons, h, alGet] using ih

theorem alGet_filter_contains {β : Type} (l : List (String × β)) (ks : List String)
    (k : String) (h : k ∈ ks) :
    alGet (l.filter (fun kv => !ks.contains kv.1)) k = none := by
  induction l with
  | nil => simp [alGet]
  | cons hd t ih =>
    by_cases hm : hd.1 ∈ ks
    · simpa [List.filter_cons, hm] using ih
    · by_cases hk : hd.1 = k
      · exact absurd (hk ▸ h) hm
      · simpa [List.filter_cons, hm, alGet, hk] using ih

theorem alGet_filter_not_contains {β : Type} (l : List (String × β)) (ks : List String)
    (k : String) (h : k ∉ ks) :
    alGet (l.filter (fun kv => !ks.contains kv.1)) k = alGet l k := by
  induction l with
  | nil => simp
  | cons hd t ih =>
    by_cases hm : hd.1 ∈ ks
    · have hk : hd.1 ≠ k := fun e => h (e ▸ hm)
      simpa [List.filter_cons, hm, alGet, hk] using ih
    · by_cases hk : hd.1 = k
      · have hm2 : k ∉ ks := hk ▸ hm
        simp [List.filter_cons, hm2, alGet, hk]
      · simpa [List.filter_cons, hm, alGet, hk] using ih

/-! ### Circuit-breaker case lemmas -/

namespace APIPerformanceOptimizer

theorem isCBO_of_none (reg : BreakerReg) (name : String) (t : Nat)
    (h : alGet reg name = none) :
    isCircuitBreakerOpen reg name t = (false, reg) := by
  simp [isCircuitBreakerOpen, h]

theorem isCBO_of_closed (reg : BreakerReg) (name : String) (t : Nat) (b : Breaker)
    (h : alGet reg name = some b) (hs : b.state = .closed) :
    isCircuitBreakerOpen reg name t = (false, reg) := by
  simp [isCircuitBreakerOpen, h, hs]

theorem isCBO_of_open_within (reg : BreakerReg) (name : String) (t : Nat) (b : Breaker)
    (h : alGet reg name = some b) (hs : b.state = .open)
    (hw : t - b.lastFailTime ≤ b.cooldownTime) :
    isCircuitBreakerOpen reg name t = (true, reg) := by
  simp [isCircuitBreakerOpen, h, hs, Nat.not_lt.mpr hw]

theorem isCBO_of_open_elapsed (reg : BreakerReg) (name : String) (t : Nat) (b : Breaker)
    (h : alGet reg name = some b) (hs : b.state = .open)
    (hw : t - b.lastFailTime > b.cooldownTime) :
    isCircuitBreakerOpen reg name t =
      (false, alSet reg name
        ⟨b.failureCount, b.lastFailTime, .halfOpen, b.threshold, b.cooldownTime⟩) := by
  simp [isCircuitBreakerOpen, h, hs, hw]

theorem updateCB_of_none (reg : BreakerReg) (name : String) (t : Nat)
    (h : alGet reg name = none) :
    updateCircuitBreaker reg name t =
      alSet reg name ⟨1, t, .closed, 5, 60000⟩ := by
  simp only [updateCircuitBreaker, h]
  rw [alGet_alSet_self]
  simp [Breaker.fresh, alSet_alSet]

theorem updateCB_of_some (reg : BreakerReg) (name : String) (t : Nat) (b : Breaker)
    (h : alGet reg name = some b) :
    updateCircuitBreaker reg name t =
      alSet reg name
        (if b.failureCount + 1 ≥ b.threshold
         then ⟨b.failureCount + 1, t, .open, b.threshold, b.cooldownTime⟩
         else ⟨b.failureCount + 1, t, b.state, b.threshold, b.cooldownTime⟩) := by
  by_cases ht : b.failureCount + 1 ≥ b.threshold
  · simp [updateCircuitBreaker, h, ht]
  · simp [updateCircuitBreaker, h, ht]

theorem resetCB_of_some (reg : BreakerReg) (name : String) (b : Breaker)
    (h : alGet reg name = some b) :
    resetCircuitBreaker reg name =
      alSet reg name ⟨0, b.lastFailTime, .closed, b.threshold, b.cooldownTime⟩ := by
  simp [resetCircuitBreaker, h]

/-! ### Retry-loop lemmas -/

theorem runRetry_allFail_result {α : Type} (A : Nat → Except String α) (E : Nat → String)
    (hA : ∀ j, A j = .error (E j)) :
    ∀ r i, (runRetry A i (r + 1)).result = .error (E (i + r)) := by
  intro r
  induction r with
  | zero => intro i; simp [runRetry, hA i]
  | succ r ih =>
    intro i
    have hrec := ih (i + 1)
    conv_lhs => rw [runRetry]
    simp only [hA i, Nat.succ_ne_zero, if_false]
    rw [hrec]
    have : i + 1 + r = i + (r + 1) := by omega
    rw [this]

theorem runRetry_allFail_calls {α : Type} (A : Nat → Except String α) (E : Nat → String)
    (hA : ∀ j, A j = .error (E j)) :
    ∀ r i, (runRetry A i (r + 1)).calls = r + 1 := by
  intro r
  induction r with
  | zero => intro i; simp [runRetry, hA i]
  | succ r ih =>
    intro i
    have hrec := ih (i + 1)
    conv_lhs => rw [runRetry]
    simp only [hA i, Nat.succ_ne_zero, if_false]
    rw [hrec]

theorem runRetry_calls_le {α : Type} (A : Nat → Except String α) :
    ∀ r i, (runRetry A i r).calls ≤ r := by
  intro r
  induction r with
  | zero => intro i; simp [runRetry]
  | succ r ih =>
    intro i
    cases hA : A i with
    | ok v => simp [runRetry, hA]
    | error e =>
      by_cases hr : r = 0
      · simp [runRetry, hA, hr]
      · have := ih (i + 1)
        simp only [runRetry, hA, hr, if_false]
        omega

theorem runRetry_delays {α : Type} (A : Nat → Except String α) :
    ∀ r i, (runRetry A i r).delays =
      (List.range ((runRetry A i r).calls - 1)).map (fun j => backoffDelay (i + j)) := by
  intro r
  induction r with
  | zero => intro i; simp [runRetry]
  | succ r ih =>
    intro i
    cases hA : A i with
    | ok v => simp [runRetry, hA]
    | error e =>
      by_cases hr : r = 0
      · simp [runRetry, hA, hr]
      · have hrec := ih (i + 1)
        have hpos : 1 ≤ (runRetry A (i + 1) r).calls := by
          cases hr2 : r with
          | zero => exact absurd hr2 hr
          | succ r2 =>
            cases hA2 : A (i + 1) with
            | ok v => simp [runRetry, hA2]
            | error e2 =>
              by_cases hr3 : r2 = 0
              · simp [runRetry, hA2, hr3]
              · simp only [runRetry, hA2, hr3, if_false]
                omega
        obtain ⟨c, hc⟩ : ∃ c, (runRetry A (i + 1) r).calls = c + 1 :=
          ⟨(runRetry A (i + 1) r).calls - 1, by omega⟩
        simp only [runRetry, hA, hr, if_false]
        rw [hrec, hc, Nat.add_sub_cancel, Nat.add_sub_cancel,
            List.range_succ_eq_map, List.map_cons, List.map_map]
        congr 1
        apply List.map_congr_left
        intro j _
        simp only [Function.comp_apply]
        congr 1
        omega

theorem runRetry_calls_pos {α : Type} (A : Nat → Except String α) (r i : Nat) :
    1 ≤ (runRetry A i (r + 1)).calls := by
  cases hA : A i with
  | ok v => simp [runRetry, hA]
  | error e =>
    by_cases hr : r = 0
    · simp [runRetry, hA, hr]
    · simp only [runRetry, hA, hr, if_false]
      omega

end APIPerformanceOptimizer

/-- A read from a cache whose storage is empty always misses and leaves the
storage empty. -/
theorem cacheGet_nil {α : Type} (c : CacheState α) (k : String) (t : Nat)
    (h : c.entries = []) :
    (CacheManager.get c k t).1 = none ∧ (CacheManager.get c k t).2.entries = [] := by
  simp [CacheManager.get, h, alGet]

namespace APIPerformanceOptimizer

/-- Reduction of optimizeAPICall to its execution tail when the breaker check
passes and the cache yields nothing truthy. -/
theorem optimize_toExec (s : SysState) (name : String)
    (A : Nat → Except String JSVal) (opts : Options) (t0 tEnd : Nat)
    (hcb : opts.circuitBreakerEnabled = true)
    (hchk : (isCircuitBreakerOpen s.breakers name t0).1 = false)
    (hce : opts.cacheEnabled = true)
    (hnohit : ∀ u, (CacheManager.get s.cache ("api_" ++ name) t0).1 = some u →
      u.truthy = false) :
    optimizeAPICall s name A opts t0 tEnd =
      execPhase
        { cache := (CacheManager.get s.cache ("api_" ++ name) t0).2,
          breakers := (isCircuitBreakerOpen s.breakers name t0).2,
          monitor := PerformanceMonitor.pmStart s.monitor ("api_" ++ name) t0,
          apiMetrics := s.apiMetrics }
        name A opts t0 tEnd := by
  simp only [optimizeAPICall, hcb, if_true, hchk, Bool.false_eq_true, if_false, hce]
  rcases hg : (CacheManager.get s.cache ("api_" ++ name) t0).1 with _ | u
  · rfl
  · have := hnohit u hg
    simp [this]

/-- The failure tail of execPhase. -/
theorem execPhase_err (s : SysState) (name : String)
    (A : Nat → Except String JSVal) (opts : Options) (t0 tEnd : Nat) (e : String)
    (herr : (executeWithRetry A opts.retryCount).result = .error e) :
    (execPhase s name A opts t0 tEnd).result = .error e ∧
    (execPhase s name A opts t0 tEnd).opCalls = (executeWithRetry A opts.retryCount).calls ∧
    (execPhase s name A opts t0 tEnd).usedCache = false ∧
    (execPhase s name A opts t0 tEnd).delays = (executeWithRetry A opts.retryCount).delays ∧
    (execPhase s name A opts t0 tEnd).state.breakers =
      (if opts.circuitBreakerEnabled then updateCircuitBreaker s.breakers name tEnd
       else s.breakers) ∧
    (execPhase s name A opts t0 tEnd).state.cache = s.cache := by
  simp only [execPhase, herr]
  simp

/-- The success tail of execPhase. -/
theorem execPhase_ok (s : SysState) (name : String)
    (A : Nat → Except String JSVal) (opts : Options) (t0 tEnd : Nat) (v : JSVal)
    (hok : (executeWithRetry A opts.retryCount).result = .ok v) :
    (execPhase s name A opts t0 tEnd).result = .ok v ∧
    (execPhase s name A opts t0 tEnd).opCalls = (executeWithRetry A opts.retryCount).calls ∧
    (execPhase s name A opts t0 tEnd).usedCache = false ∧
    (execPhase s name A opts t0 tEnd).delays = (executeWithRetry A opts.retryCount).delays ∧
    (execPhase s name A opts t0 tEnd).state.breakers = resetCircuitBreaker s.breakers name ∧
    (execPhase s name A opts t0 tEnd).state.cache =
      (if opts.cacheEnabled && v.truthy then
        (CacheManager.set s.cache ("api_" ++ name) v (5 * 60 * 1000) "normal" tEnd).2
       else s.cache) := by
  simp only [execPhase, hok]
  simp

/-- The fast-fail path of optimizeAPICall: an open breaker inside its
cooldown rejects the call, never runs the operation, and feeds the rejection
back into the breaker as a fresh failure stamped with the rejection time. -/
theorem optimize_reject (s : SysState) (name : String)
    (A : Nat → Except String JSVal) (opts : Options) (t0 tEnd : Nat) (b : Breaker)
    (hcb : opts.circuitBreakerEnabled = true)
    (hb : alGet s.breakers name = some b)
    (hopen : b.state = .open)
    (hw : t0 - b.lastFailTime ≤ b.cooldownTime) :
    (optimizeAPICall s name A opts t0 tEnd).result = .error (circuitOpenMsg name) ∧
    (optimizeAPICall s name A opts t0 tEnd).opCalls = 0 ∧
    (optimizeAPICall s name A opts t0 tEnd).usedCache = false ∧
    (optimizeAPICall s name A opts t0 tEnd).state.breakers =
      alSet s.breakers name
        ⟨b.failureCount + 1, tEnd, .open, b.threshold, b.cooldownTime⟩ ∧
    (optimizeAPICall s name A opts t0 tEnd).state.cache = s.cache := by
  have hch := isCBO_of_open_within s.breakers name t0 b hb hopen hw
  have hupd := updateCB_of_some s.breakers name tEnd b hb
  simp only [optimizeAPICall, hcb, if_true, hch]
  refine ⟨by simp, by simp, by simp, ?_, by simp⟩
  rw [hupd]
  by_cases ht : b.failureCount + 1 ≥ b.threshold
  · rw [if_pos ht]
  · rw [if_neg ht, hopen]

/-- One invoke whose every attempt fails, from a state with an empty cache
store and a passing breaker check: the last error propagates, all
`retryCount + 1` attempts run, the breaker absorbs one failure stamped at the
settle time, and the cache store stays empty. -/
theorem failing_step (s : SysState) (name : String) (A : Nat → Except String JSVal)
    (E : Nat → String) (opts : Options) (t0 tEnd : Nat) (breg : BreakerReg)
    (hcb : opts.circuitBreakerEnabled = true)
    (hce : opts.cacheEnabled = true)
    (hcbo : isCircuitBreakerOpen s.breakers name t0 = (false, breg))
    (hent : s.cache.entries = [])
    (hA : ∀ j, A j = .error (E j)) :
    (optimizeAPICall s name A opts t0 tEnd).result = .error (E opts.retryCount) ∧
    (optimizeAPICall s name A opts t0 tEnd).opCalls = opts.retryCount + 1 ∧
    (optimizeAPICall s name A opts t0 tEnd).state.breakers =
      updateCircuitBreaker breg name tEnd ∧
    (optimizeAPICall s name A opts t0 tEnd).state.cache.entries = [] := by
  have hchk : (isCircuitBreakerOpen s.breakers name t0).1 = false := by rw [hcbo]
  have hmiss := cacheGet_nil s.cache ("api_" ++ name) t0 hent
  have hnohit : ∀ u, (CacheManager.get s.cache ("api_" ++ name) t0).1 = some u →
      u.truthy = false := by
    intro u hu
    rw [hmiss.1] at hu
    exact absurd hu (by simp)
  have hred := optimize_toExec s name A opts t0 tEnd hcb hchk hce hnohit
  have herr : (executeWithRetry A opts.retryCount).result = .error (E opts.retryCount) := by
    have h := runRetry_allFail_result A E hA opts.retryCount 0
    simpa [executeWithRetry] using h
  have hcalls : (executeWithRetry A opts.retryCount).calls = opts.retryCount + 1 := by
    have h := runRetry_allFail_calls A E hA opts.retryCount 0
    simpa [executeWithRetry] using h
  obtain ⟨h1, h2, _, _, h5, h6⟩ :=
    execPhase_err
      { cache := (CacheManager.get s.cache ("api_" ++ name) t0).2,
        breakers := (isCircuitBreakerOpen s.breakers name t0).2,
        monitor := PerformanceMonitor.pmStart s.monitor ("api_" ++ name) t0,
        apiMetrics := s.apiMetrics }
      name A opts t0 tEnd (E opts.retryCount) herr
  rw [hred]
  refine ⟨h1, by rw [h2, hcalls], ?_, ?_⟩
  · rw [h5, if_pos hcb]
    show updateCircuitBreaker (isCircuitBreakerOpen s.breakers name t0).2 name tEnd = _
    rw [hcbo]
  · rw [h6]
    exact hmiss.2

end APIPerformanceOptimizer

theorem sorted_take_le_drop {α : Type} (r : α → α → Prop) (l : List α)
    (h : List.Sorted r l) (n : Nat) :
    ∀ a ∈ l.take n, ∀ b ∈ l.drop n, r a b := by
  have h1 : List.Pairwise r (l.take n ++ l.drop n) := by
    rw [List.take_append_drop]; exact h
  exact (List.pairwise_append.mp h1).2.2


/-! ### Claim theorems: cache and monitor -/

/-- C6: a cache entry is visible only while unexpired — a `get` performed when
`now` exceeds `createdAt + ttlMs` (here `timestamp + expireTime`) returns
absent, counts a miss in the statistics, and removes the expired entry from
the store (counting the removal). -/
theorem C6_expired_entry_is_miss_and_purged {α : Type} (s : CacheState α) (key : String)
    (now : Nat) (e : CacheEntry α)
    (hl : alGet s.entries (CacheManager.cachePre ++ key) = some e)
    (hexp : now > e.timestamp + e.expireTime) :
    (CacheManager.get s key now).1 = none ∧
    (CacheManager.get s key now).2.misses = s.misses + 1 ∧
    alGet (CacheManager.get s key now).2.entries (CacheManager.cachePre ++ key) = none ∧
    (CacheManager.get s key now).2.removes = s.removes + 1 := by
  have hgt : now - e.timestamp > e.expireTime := by omega
  simp only [CacheManager.get, hl, CacheManager.remove]
  rw [if_pos hgt]
  exact ⟨rfl, rfl, alGet_alDel_self _ _, rfl⟩

/-- Witness for C6 at `now = 151`: the read misses and the entry is gone. -/
theorem C6_witness :
    (CacheManager.get c6W "k" 151).1 = none ∧
    (CacheManager.get c6W "k" 151).2.misses = c6W.misses + 1 ∧
    alGet (CacheManager.get c6W "k" 151).2.entries (CacheManager.cachePre ++ "k") = none ∧
    (CacheManager.get c6W "k" 151).2.removes = c6W.removes + 1 :=
  C6_expired_entry_is_miss_and_purged c6W "k" 151 c6E rfl (by decide)

/-- C10: clear() is idempotent — both of two consecutive clears report
success, each leaves no cache-prefixed key in the store, and the second
changes nothing. -/
theorem C10_clear_idempotent {α : Type} (s : CacheState α) :
    (CacheManager.clear s).1 = true ∧
    (CacheManager.clear (CacheManager.clear s).2).1 = true ∧
    (∀ kv ∈ (CacheManager.clear s).2.entries,
       kv.1.startsWith CacheManager.cachePre = false) ∧
    (∀ kv ∈ (CacheManager.clear (CacheManager.clear s).2).2.entries,
       kv.1.startsWith CacheManager.cachePre = false) ∧
    (CacheManager.clear (CacheManager.clear s).2).2.entries =
      (CacheManager.clear s).2.entries := by
  refine ⟨rfl, rfl, ?_, ?_, ?_⟩
  · intro kv hkv
    have h := (List.mem_filter.mp hkv).2
    simpa using h
  · intro kv hkv
    have h := (List.mem_filter.mp hkv).2
    simpa using h
  · show List.filter _ (List.filter _ s.entries) = List.filter _ s.entries
    rw [List.filter_filter]
    simp

/-- C7: priority eviction orders the cache entries by ascending priority
weight with ties by ascending access count, removes exactly the first 30
percent of that order — every removed entry is below every kept one — and
touches nothing else in the store. -/
theorem C7_priority_eviction {α : Type} (s : CacheState α) :
    let items := CacheManager.collectItems s.entries
    let sorted := List.insertionSort CacheManager.ItemLE items
    let deleteCount := items.length * 3 / 10
    let victims := (sorted.take deleteCount).map CacheManager.Item.key
    List.Sorted CacheManager.ItemLE sorted ∧
    sorted.Perm items ∧
    (∀ a ∈ sorted.take deleteCount, ∀ b ∈ sorted.drop deleteCount,
       CacheManager.ItemLE a b) ∧
    (CacheManager.cleanupByPriority s).removes = s.removes + deleteCount ∧
    (∀ k, k ∈ victims → alGet (CacheManager.cleanupByPriority s).entries k = none) ∧
    (∀ k, k ∉ victims →
       alGet (CacheManager.cleanupByPriority s).entries k = alGet s.entries k) := by
  intro items sorted deleteCount victims
  refine ⟨List.sorted_insertionSort _ _, List.perm_insertionSort _ _,
    sorted_take_le_drop _ _ (List.sorted_insertionSort _ _) _, rfl, ?_, ?_⟩
  · intro k hk
    exact alGet_filter_contains s.entries victims k hk
  · intro k hk
    exact alGet_filter_not_contains s.entries victims k hk

/-- C8: a matched end() returns the measured duration and folds it into the
running average incrementally: with `n` the number of operations ended so
far (including this one), the new average is `(avg·(n-1) + duration)/n`. -/
theorem C8_incremental_average (m : MonitorState) (name : String) (now : Nat) (r : PMRecord)
    (h : alGet m.records name = some r) :
    (PerformanceMonitor.pmEnd m name now).1 = (now : Int) - (r.startTime : Int) ∧
    (PerformanceMonitor.pmEnd m name now).2.stats.totalOperations =
      m.stats.totalOperations + 1 ∧
    (PerformanceMonitor.pmEnd m name now).2.stats.averageTime =
      (m.stats.averageTime * (m.stats.totalOperations : ℚ) +
        (((now : Int) - (r.startTime : Int) : ℤ) : ℚ)) /
        ((m.stats.totalOperations + 1 : ℕ) : ℚ) := by
  simp only [PerformanceMonitor.pmEnd, h]
  refine ⟨by simp, ?_, ?_⟩
  · simp only [PerformanceMonitor.updateStats]
    split <;> split <;> rfl
  · simp only [PerformanceMonitor.updateStats]
    split <;> split <;> simp [Nat.add_sub_cancel]

/-- Witness for C8: ending the third measurement returns 300 and the average
of 100, 200, 300 is exactly 200. -/
theorem C8_witness :
    (PerformanceMonitor.pmEnd pmW5 "op" 2300).1 = 300 ∧
    (PerformanceMonitor.pmEnd pmW5 "op" 2300).2.stats.averageTime = 200 := by
  have h := C8_incremental_average pmW5 "op" 2300
    { startTime := 2000, endTime := none, duration := none } (by decide)
  refine ⟨?_, ?_⟩
  · rw [h.1]
    decide
  · rw [h.2.2]
    norm_num [pmW5, pmW0, PerformanceMonitor.pmStart, PerformanceMonitor.pmEnd,
      PerformanceMonitor.updateStats, PerformanceMonitor.keepLast, alGet, alSet]

/-! ### Claim theorems: circuit breaker and invoker -/

namespace APIPerformanceOptimizer

/-- C4: every failure path of optimizeAPICall with the breaker enabled feeds
updateCircuitBreaker — including the fast-fail rejection thrown because the
breaker is already open.  A call rejected during the cooldown therefore
increments the failure count, restamps the last-failure time with the
rejection time, and the breaker can next report non-open (entering
HALF_OPEN) only at a moment a full cooldown after that rejection. -/
theorem C4_rejection_feeds_breaker (s : SysState) (name : String)
    (A : Nat → Except String JSVal) (opts : Options) (t0 tEnd : Nat) (b : Breaker)
    (hcb : opts.circuitBreakerEnabled = true)
    (hb : alGet s.breakers name = some b)
    (hopen : b.state = .open)
    (hw : t0 - b.lastFailTime ≤ b.cooldownTime) :
    (optimizeAPICall s name A opts t0 tEnd).result = .error (circuitOpenMsg name) ∧
    (optimizeAPICall s name A opts t0 tEnd).opCalls = 0 ∧
    (optimizeAPICall s name A opts t0 tEnd).state.breakers =
      updateCircuitBreaker s.breakers name tEnd ∧
    alGet (optimizeAPICall s name A opts t0 tEnd).state.breakers name =
      some ⟨b.failureCount + 1, tEnd, .open, b.threshold, b.cooldownTime⟩ ∧
    (∀ t2, (isCircuitBreakerOpen
        (optimizeAPICall s name A opts t0 tEnd).state.breakers name t2).1 = false ↔
      t2 - tEnd > b.cooldownTime) := by
  obtain ⟨h1, h2, _, h4, _⟩ := optimize_reject s name A opts t0 tEnd b hcb hb hopen hw
  have hupd := updateCB_of_some s.breakers name tEnd b hb
  have hnew : alGet (optimizeAPICall s name A opts t0 tEnd).state.breakers name =
      some ⟨b.failureCount + 1, tEnd, .open, b.threshold, b.cooldownTime⟩ := by
    rw [h4]
    exact alGet_alSet_self _ _ _
  refine ⟨h1, h2, ?_, hnew, ?_⟩
  · rw [h4, hupd]
    by_cases ht : b.failureCount + 1 ≥ b.threshold
    · rw [if_pos ht]
    · rw [if_neg ht, hopen]
  · intro t2
    by_cases he : t2 - tEnd > b.cooldownTime
    · have hel := isCBO_of_open_elapsed _ name t2 _ hnew rfl (by simpa using he)
      rw [hel]
      simpa using he
    · have hwi := isCBO_of_open_within _ name t2 _ hnew rfl (by simpa using Nat.not_lt.mp he)
      rw [hwi]
      simpa using he

/-- Witness for C4: a call rejected at 50000/50005 ms leaves the breaker with
six failures stamped 50005, and at 110006 ms (one cooldown plus one past the
rejection) the check finally reports non-open. -/
theorem C4_witness :
    (optimizeAPICall c4W "X" (fun _ => .ok (.vNum 1)) {} 50000 50005).result =
      .error (circuitOpenMsg "X") ∧
    (optimizeAPICall c4W "X" (fun _ => .ok (.vNum 1)) {} 50000 50005).opCalls = 0 ∧
    alGet (optimizeAPICall c4W "X" (fun _ => .ok (.vNum 1)) {} 50000 50005).state.breakers
      "X" = some ⟨6, 50005, .open, 5, 60000⟩ ∧
    (isCircuitBreakerOpen
      (optimizeAPICall c4W "X" (fun _ => .ok (.vNum 1)) {} 50000 50005).state.breakers
      "X" 110006).1 = false := by
  have h := C4_rejection_feeds_breaker c4W "X" (fun _ => .ok (.vNum 1)) {} 50000 50005
    ⟨5, 100, .open, 5, 60000⟩ rfl rfl rfl (by decide)
  exact ⟨h.1, h.2.1, h.2.2.2.1, (h.2.2.2.2 110006).mpr (by decide)⟩

end APIPerformanceOptimizer

namespace APIPerformanceOptimizer

/-- C1 counterexample: at 1000001 ms the cache holds a valid truthy value for
api_Y and the breaker for Y is OPEN with unexpired cooldown, yet the call
returns the circuit-open error, not the cached value — the source consults
the breaker before the cache, so the cache does not bypass an open breaker. -/
theorem C1_counterexample :
    (CacheManager.get c1Sys.cache "api_Y" 1000001).1 = some (.vStr "cached") ∧
    (JSVal.vStr "cached").truthy = true ∧
    (isCircuitBreakerOpen c1Sys.breakers "Y" 1000001).1 = true ∧
    (optimizeAPICall c1Sys "Y" (fun _ => .ok (.vStr "fresh")) {} 1000001 1000001).result =
      .error (circuitOpenMsg "Y") ∧
    (optimizeAPICall c1Sys "Y" (fun _ => .ok (.vStr "fresh")) {} 1000001 1000001).result ≠
      .ok (.vStr "cached") := by
  have h4 : (optimizeAPICall c1Sys "Y" (fun _ => .ok (.vStr "fresh")) {} 1000001
      1000001).result = .error (circuitOpenMsg "Y") := rfl
  refine ⟨rfl, rfl, rfl, h4, ?_⟩
  rw [h4]
  simp

/-- C1 amended: a valid cache entry bypasses the operation only once the
breaker check has passed (breaker disabled, absent, closed, or past its
cooldown); while the breaker is OPEN with unexpired cooldown the call fails
with the circuit-open error despite the valid entry, the breaker being
consulted first. -/
theorem C1_amended_cache_after_breaker (s : SysState) (name : String)
    (A : Nat → Except String JSVal) (opts : Options) (t0 tEnd : Nat) (v : JSVal)
    (hce : opts.cacheEnabled = true)
    (hhit : (CacheManager.get s.cache ("api_" ++ name) t0).1 = some v)
    (htr : v.truthy = true) :
    ((opts.circuitBreakerEnabled = false ∨
        (isCircuitBreakerOpen s.breakers name t0).1 = false) →
      (optimizeAPICall s name A opts t0 tEnd).result = .ok v ∧
      (optimizeAPICall s name A opts t0 tEnd).opCalls = 0 ∧
      (optimizeAPICall s name A opts t0 tEnd).usedCache = true) ∧
    (∀ b, opts.circuitBreakerEnabled = true → alGet s.breakers name = some b →
      b.state = .open → t0 - b.lastFailTime ≤ b.cooldownTime →
      (optimizeAPICall s name A opts t0 tEnd).result = .error (circuitOpenMsg name) ∧
      (optimizeAPICall s name A opts t0 tEnd).usedCache = false) := by
  constructor
  · intro hp
    rcases hp with hcbF | hchk
    · simp only [optimizeAPICall, hcbF, Bool.false_eq_true, if_false, hce, if_true, hhit, htr]
      refine ⟨?_, ?_, ?_⟩ <;> simp
    · simp only [optimizeAPICall, hchk, Bool.false_eq_true, hce, if_true, hhit, htr]
      by_cases hcbE : opts.circuitBreakerEnabled = true
      · simp only [hcbE, if_true, hchk, Bool.false_eq_true, if_false]
        refine ⟨?_, ?_, ?_⟩ <;> simp
      · simp only [hcbE, if_false]
        refine ⟨?_, ?_, ?_⟩ <;> simp
  · intro b hcb hb hopen hw
    obtain ⟨h1, _, hu, _, _⟩ := optimize_reject s name A opts t0 tEnd b hcb hb hopen hw
    exact ⟨h1, hu⟩

/-- Witness for the amended C1: with the breaker check passing (no breaker
registered), the valid cached value is returned without any operation call. -/
theorem C1_witness :
    (optimizeAPICall c1SysB "Y" (fun _ => .ok (.vStr "fresh")) {} 1000001 1000001).result =
      .ok (.vStr "cached") ∧
    (optimizeAPICall c1SysB "Y" (fun _ => .ok (.vStr "fresh")) {} 1000001 1000001).opCalls = 0 ∧
    (optimizeAPICall c1SysB "Y" (fun _ => .ok (.vStr "fresh")) {} 1000001 1000001).usedCache =
      true :=
  (C1_amended_cache_after_breaker c1SysB "Y" (fun _ => .ok (.vStr "fresh")) {} 1000001 1000001
    (.vStr "cached") rfl rfl rfl).1 (Or.inr rfl)

end APIPerformanceOptimizer

namespace APIPerformanceOptimizer

/-- C3: once the cooldown has elapsed since the last failure of an OPEN
breaker, the next call is let through as the HALF_OPEN trial (the check flips
the breaker to half-open and reports non-open, and the operation runs at
least once); a successful trial resets the breaker to CLOSED with zero
failures, a failed trial returns it to OPEN with the cooldown clock
restarted from the new failure time. -/
theorem C3_half_open_recovery (s : SysState) (name : String)
    (A : Nat → Except String JSVal) (opts : Options) (t0 tEnd : Nat) (b : Breaker)
    (hcb : opts.circuitBreakerEnabled = true)
    (hce : opts.cacheEnabled = true)
    (hb : alGet s.breakers name = some b)
    (hopen : b.state = .open)
    (helap : t0 - b.lastFailTime > b.cooldownTime)
    (hthr : b.threshold ≤ b.failureCount)
    (hnohit : ∀ u, (CacheManager.get s.cache ("api_" ++ name) t0).1 = some u →
      u.truthy = false) :
    isCircuitBreakerOpen s.breakers name t0 =
      (false, alSet s.breakers name
        ⟨b.failureCount, b.lastFailTime, .halfOpen, b.threshold, b.cooldownTime⟩) ∧
    (optimizeAPICall s name A opts t0 tEnd).opCalls =
      (executeWithRetry A opts.retryCount).calls ∧
    1 ≤ (optimizeAPICall s name A opts t0 tEnd).opCalls ∧
    (∀ v, (executeWithRetry A opts.retryCount).result = .ok v →
      (optimizeAPICall s name A opts t0 tEnd).result = .ok v ∧
      (optimizeAPICall s name A opts t0 tEnd).state.breakers =
        alSet s.breakers name
          ⟨0, b.lastFailTime, .closed, b.threshold, b.cooldownTime⟩) ∧
    (∀ e, (executeWithRetry A opts.retryCount).result = .error e →
      (optimizeAPICall s name A opts t0 tEnd).result = .error e ∧
      (optimizeAPICall s name A opts t0 tEnd).state.breakers =
        alSet s.breakers name
          ⟨b.failureCount + 1, tEnd, .open, b.threshold, b.cooldownTime⟩) := by
  have hch := isCBO_of_open_elapsed s.breakers name t0 b hb hopen helap
  have hchk : (isCircuitBreakerOpen s.breakers name t0).1 = false := by rw [hch]
  have hred := optimize_toExec s name A opts t0 tEnd hcb hchk hce hnohit
  have hbH : alGet (isCircuitBreakerOpen s.breakers name t0).2 name =
      some ⟨b.failureCount, b.lastFailTime, .halfOpen, b.threshold, b.cooldownTime⟩ := by
    rw [hch]
    exact alGet_alSet_self _ _ _
  have hcalls : ∀ rr : RetryResult JSVal, rr = executeWithRetry A opts.retryCount →
      (optimizeAPICall s name A opts t0 tEnd).opCalls =
        (executeWithRetry A opts.retryCount).calls := by
    intro rr hrr
    rw [hred]
    cases hres : (executeWithRetry A opts.retryCount).result with
    | ok v => exact (execPhase_ok _ name A opts t0 tEnd v hres).2.1
    | error e => exact (execPhase_err _ name A opts t0 tEnd e hres).2.1
  have hoc := hcalls (executeWithRetry A opts.retryCount) rfl
  refine ⟨hch, hoc, ?_, ?_, ?_⟩
  · rw [hoc]
    exact runRetry_calls_pos A opts.retryCount 0
  · intro v hres
    obtain ⟨h1, _, _, _, h5, _⟩ := execPhase_ok
      { cache := (CacheManager.get s.cache ("api_" ++ name) t0).2,
        breakers := (isCircuitBreakerOpen s.breakers name t0).2,
        monitor := PerformanceMonitor.pmStart s.monitor ("api_" ++ name) t0,
        apiMetrics := s.apiMetrics } name A opts t0 tEnd v hres
    rw [hred]
    refine ⟨h1, ?_⟩
    rw [h5]
    show resetCircuitBreaker (isCircuitBreakerOpen s.breakers name t0).2 name = _
    rw [resetCB_of_some _ name _ hbH, hch]
    exact alSet_alSet _ _ _ _
  · intro e hres
    obtain ⟨h1, _, _, _, h5, _⟩ := execPhase_err
      { cache := (CacheManager.get s.cache ("api_" ++ name) t0).2,
        breakers := (isCircuitBreakerOpen s.breakers name t0).2,
        monitor := PerformanceMonitor.pmStart s.monitor ("api_" ++ name) t0,
        apiMetrics := s.apiMetrics } name A opts t0 tEnd e hres
    rw [hred]
    refine ⟨h1, ?_⟩
    rw [h5, if_pos hcb]
    show updateCircuitBreaker (isCircuitBreakerOpen s.breakers name t0).2 name tEnd = _
    rw [updateCB_of_some _ name tEnd _ hbH, if_pos (by simpa using Nat.le_succ_of_le hthr),
      hch]
    exact alSet_alSet _ _ _ _

/-- Witness for C3 at 60101 ms (cooldown of 60000 ms elapsed since 100 ms):
the check flips to half-open and lets the call through, and the successful
trial leaves the breaker CLOSED with zero failures. -/
theorem C3_witness :
    isCircuitBreakerOpen c3W.breakers "X" 60101 =
      (false, alSet c3W.breakers "X" ⟨5, 100, .halfOpen, 5, 60000⟩) ∧
    (optimizeAPICall c3W "X" (fun _ => .ok (.vNum 1)) {} 60101 60105).result =
      .ok (.vNum 1) ∧
    (optimizeAPICall c3W "X" (fun _ => .ok (.vNum 1)) {} 60101 60105).state.breakers =
      alSet c3W.breakers "X" ⟨0, 100, .closed, 5, 60000⟩ := by
  have hnohit : ∀ u, (CacheManager.get c3W.cache ("api_" ++ "X") 60101).1 = some u →
      u.truthy = false := by
    intro u hu
    rw [(cacheGet_nil c3W.cache ("api_" ++ "X") 60101 rfl).1] at hu
    exact absurd hu (by simp)
  have h := C3_half_open_recovery c3W "X" (fun _ => .ok (.vNum 1)) {} 60101 60105
    ⟨5, 100, .open, 5, 60000⟩ rfl rfl rfl rfl (by decide) (by decide) hnohit
  have hok : (executeWithRetry (fun _ => .ok (JSVal.vNum 1))
      (Options.retryCount {})).result = .ok (.vNum 1) := rfl
  exact ⟨h.1, (h.2.2.2.1 _ hok).1, (h.2.2.2.1 _ hok).2⟩

end APIPerformanceOptimizer

namespace APIPerformanceOptimizer

/-- C5: the wrapped operation is attempted up to `retryCount + 1` times with
the backoff `min(1000·2^attempt, 5000)` slept between attempts; with the
default budget of 3 retries and an operation failing twice then succeeding,
the success is returned after exactly 3 calls and the two inter-attempt
delays 1000 ms and 2000 ms are strictly increasing. -/
theorem C5_retry_backoff (s : SysState) (name : String)
    (A : Nat → Except String JSVal) (opts : Options) (t0 tEnd : Nat)
    (e0 e1 : String) (v : JSVal)
    (hcb : opts.circuitBreakerEnabled = true)
    (hchk : (isCircuitBreakerOpen s.breakers name t0).1 = false)
    (hce : opts.cacheEnabled = true)
    (hnohit : ∀ u, (CacheManager.get s.cache ("api_" ++ name) t0).1 = some u →
      u.truthy = false)
    (hrc : opts.retryCount = 3)
    (h0 : A 0 = .error e0) (h1 : A 1 = .error e1) (h2 : A 2 = .ok v) :
    (optimizeAPICall s name A opts t0 tEnd).result = .ok v ∧
    (optimizeAPICall s name A opts t0 tEnd).opCalls = 3 ∧
    (optimizeAPICall s name A opts t0 tEnd).delays = [1000, 2000] ∧
    List.Chain' (fun a b => a < b) (optimizeAPICall s name A opts t0 tEnd).delays ∧
    (∀ (B : Nat → Except String JSVal) (rc : Nat),
      (executeWithRetry B rc).calls ≤ rc + 1 ∧
      (executeWithRetry B rc).delays =
        (List.range ((executeWithRetry B rc).calls - 1)).map backoffDelay) ∧
    (∀ i, backoffDelay i = min (1000 * 2 ^ i) 5000) := by
  have hrun : executeWithRetry A opts.retryCount =
      { result := .ok v, calls := 3, delays := [1000, 2000] } := by
    rw [hrc]
    simp [executeWithRetry, runRetry, h0, h1, h2, backoffDelay]
  have hres : (executeWithRetry A opts.retryCount).result = .ok v := by rw [hrun]
  have hred := optimize_toExec s name A opts t0 tEnd hcb hchk hce hnohit
  obtain ⟨g1, g2, _, g4, _, _⟩ := execPhase_ok
    { cache := (CacheManager.get s.cache ("api_" ++ name) t0).2,
      breakers := (isCircuitBreakerOpen s.breakers name t0).2,
      monitor := PerformanceMonitor.pmStart s.monitor ("api_" ++ name) t0,
      apiMetrics := s.apiMetrics } name A opts t0 tEnd v hres
  rw [hred]
  have hdel : (execPhase
      { cache := (CacheManager.get s.cache ("api_" ++ name) t0).2,
        breakers := (isCircuitBreakerOpen s.breakers name t0).2,
        monitor := PerformanceMonitor.pmStart s.monitor ("api_" ++ name) t0,
        apiMetrics := s.apiMetrics } name A opts t0 tEnd).delays = [1000, 2000] := by
    rw [g4, hrun]
  refine ⟨g1, ?_, hdel, ?_, ?_, fun i => rfl⟩
  · rw [g2, hrun]
  · rw [hdel]
    exact List.chain'_pair.mpr (by norm_num)
  · intro B rc
    refine ⟨runRetry_calls_le B (rc + 1) 0, ?_⟩
    have h := runRetry_delays B (rc + 1) 0
    simpa using h

/-- Witness for C5: the concrete fails-twice-then-succeeds run returns the
success after exactly 3 calls with strictly increasing delays 1000, 2000. -/
theorem C5_witness :
    (optimizeAPICall c5W "X" c5A {} 10 20).result = .ok (.vNum 7) ∧
    (optimizeAPICall c5W "X" c5A {} 10 20).opCalls = 3 ∧
    (optimizeAPICall c5W "X" c5A {} 10 20).delays = [1000, 2000] ∧
    List.Chain' (fun a b => a < b) (optimizeAPICall c5W "X" c5A {} 10 20).delays := by
  have hnohit : ∀ u, (CacheManager.get c5W.cache ("api_" ++ "X") 10).1 = some u →
      u.truthy = false := by
    intro u hu
    rw [(cacheGet_nil c5W.cache ("api_" ++ "X") 10 rfl).1] at hu
    exact absurd hu (by simp)
  have h := C5_retry_backoff c5W "X" c5A {} 10 20 "e0" "e1" (.vNum 7)
    rfl rfl rfl hnohit rfl rfl rfl rfl
  exact ⟨h.1, h.2.1, h.2.2.1, h.2.2.2.1⟩

/-- C9: optimizeAPICall stores a result in the cache only when it is truthy,
and a falsy cached value is never served as a hit — when the cache holds
nothing truthy for the key the call always re-executes the operation, and a
falsy operation result leaves the cache store unchanged, so falsy values
(false, 0, the empty string, null) are never served from the api_ key. -/
theorem C9_falsy_not_cached (s : SysState) (name : String)
    (A : Nat → Except String JSVal) (opts : Options) (t0 tEnd : Nat)
    (hcb : opts.circuitBreakerEnabled = true)
    (hchk : (isCircuitBreakerOpen s.breakers name t0).1 = false)
    (hce : opts.cacheEnabled = true)
    (hnohit : ∀ u, (CacheManager.get s.cache ("api_" ++ name) t0).1 = some u →
      u.truthy = false) :
    (optimizeAPICall s name A opts t0 tEnd).usedCache = false ∧
    (optimizeAPICall s name A opts t0 tEnd).opCalls =
      (executeWithRetry A opts.retryCount).calls ∧
    1 ≤ (optimizeAPICall s name A opts t0 tEnd).opCalls ∧
    (∀ w, (executeWithRetry A opts.retryCount).result = .ok w → w.truthy = false →
      (optimizeAPICall s name A opts t0 tEnd).result = .ok w ∧
      (optimizeAPICall s name A opts t0 tEnd).state.cache.entries =
        (CacheManager.get s.cache ("api_" ++ name) t0).2.entries) := by
  have hred := optimize_toExec s name A opts t0 tEnd hcb hchk hce hnohit
  have hoc : (optimizeAPICall s name A opts t0 tEnd).opCalls =
      (executeWithRetry A opts.retryCount).calls := by
    rw [hred]
    cases hres : (executeWithRetry A opts.retryCount).result with
    | ok v => exact (execPhase_ok _ name A opts t0 tEnd v hres).2.1
    | error e => exact (execPhase_err _ name A opts t0 tEnd e hres).2.1
  have huc : (optimizeAPICall s name A opts t0 tEnd).usedCache = false := by
    rw [hred]
    cases hres : (executeWithRetry A opts.retryCount).result with
    | ok v => exact (execPhase_ok _ name A opts t0 tEnd v hres).2.2.1
    | error e => exact (execPhase_err _ name A opts t0 tEnd e hres).2.2.1
  refine ⟨huc, hoc, ?_, ?_⟩
  · rw [hoc]
    exact runRetry_calls_pos A opts.retryCount 0
  · intro w hres hfalsy
    obtain ⟨g1, _, _, _, _, g6⟩ := execPhase_ok
      { cache := (CacheManager.get s.cache ("api_" ++ name) t0).2,
        breakers := (isCircuitBreakerOpen s.breakers name t0).2,
        monitor := PerformanceMonitor.pmStart s.monitor ("api_" ++ name) t0,
        apiMetrics := s.apiMetrics } name A opts t0 tEnd w hres
    rw [hred]
    refine ⟨g1, ?_⟩
    rw [g6, hfalsy]
    simp

/-- Witness for C9: an operation returning the falsy value `false` runs, its
result is surfaced, and the (empty) cache store stays empty — nothing is
written under the api_ key. -/
theorem C9_witness :
    (optimizeAPICall c5W "F" (fun _ => .ok (.vBool false)) {} 30 40).usedCache = false ∧
    (optimizeAPICall c5W "F" (fun _ => .ok (.vBool false)) {} 30 40).opCalls = 1 ∧
    (optimizeAPICall c5W "F" (fun _ => .ok (.vBool false)) {} 30 40).result =
      .ok (.vBool false) ∧
    (optimizeAPICall c5W "F" (fun _ => .ok (.vBool false)) {} 30 40).state.cache.entries =
      [] := by
  have hnohit : ∀ u, (CacheManager.get c5W.cache ("api_" ++ "F") 30).1 = some u →
      u.truthy = false := by
    intro u hu
    rw [(cacheGet_nil c5W.cache ("api_" ++ "F") 30 rfl).1] at hu
    exact absurd hu (by simp)
  have h := C9_falsy_not_cached c5W "F" (fun _ => .ok (.vBool false)) {} 30 40
    rfl rfl rfl hnohit
  have hres : (executeWithRetry (fun _ => .ok (JSVal.vBool false))
      (Options.retryCount {})).result = .ok (.vBool false) := rfl
  have hw := h.2.2.2 (.vBool false) hres rfl
  refine ⟨h.1, ?_, hw.1, ?_⟩
  · rw [h.2.1]
    rfl
  · rw [hw.2]
    rfl

end APIPerformanceOptimizer

namespace APIPerformanceOptimizer

/-- C2: starting with no breaker for the name (so the default threshold 5 and
cooldown 60000 apply) and an empty cache store, five consecutive invocations
whose every attempt fails leave the breaker OPEN with five failures stamped
at the fifth settle time; a sixth invoke made while that cooldown is
unexpired fails immediately with the circuit-open error and never calls its
operation, whatever that operation would have returned. -/
theorem C2_breaker_trip (s0 : SysState) (name : String)
    (A1 A2 A3 A4 A5 A6 : Nat → Except String JSVal)
    (E1 E2 E3 E4 E5 : Nat → String)
    (t1 u1 t2 u2 t3 u3 t4 u4 t5 u5 t6 u6 : Nat)
    (hbr : alGet s0.breakers name = none)
    (hent : s0.cache.entries = [])
    (hA1 : ∀ j, A1 j = .error (E1 j))
    (hA2 : ∀ j, A2 j = .error (E2 j))
    (hA3 : ∀ j, A3 j = .error (E3 j))
    (hA4 : ∀ j, A4 j = .error (E4 j))
    (hA5 : ∀ j, A5 j = .error (E5 j))
    (hcool : t6 - u5 ≤ 60000) :
    let opts : Options := {}
    let s1 := (optimizeAPICall s0 name A1 opts t1 u1).state
    let s2 := (optimizeAPICall s1 name A2 opts t2 u2).state
    let s3 := (optimizeAPICall s2 name A3 opts t3 u3).state
    let s4 := (optimizeAPICall s3 name A4 opts t4 u4).state
    let s5 := (optimizeAPICall s4 name A5 opts t5 u5).state
    alGet s5.breakers name = some ⟨5, u5, .open, 5, 60000⟩ ∧
    (optimizeAPICall s5 name A6 opts t6 u6).result = .error (circuitOpenMsg name) ∧
    (optimizeAPICall s5 name A6 opts t6 u6).opCalls = 0 := by
  intro opts s1 s2 s3 s4 s5
  have hcb : opts.circuitBreakerEnabled = true := rfl
  have hce : opts.cacheEnabled = true := rfl
  have hcbo1 : isCircuitBreakerOpen s0.breakers name t1 = (false, s0.breakers) :=
    isCBO_of_none _ _ _ hbr
  obtain ⟨_, _, hb1, he1⟩ :=
    failing_step s0 name A1 E1 opts t1 u1 s0.breakers hcb hce hcbo1 hent hA1
  have hb1e : s1.breakers = alSet s0.breakers name ⟨1, u1, .closed, 5, 60000⟩ := by
    rw [hb1, updateCB_of_none _ _ _ hbr]
  have hl1 : alGet s1.breakers name = some ⟨1, u1, .closed, 5, 60000⟩ := by
    rw [hb1e]
    exact alGet_alSet_self _ _ _
  have hcbo2 : isCircuitBreakerOpen s1.breakers name t2 = (false, s1.breakers) :=
    isCBO_of_closed _ _ _ _ hl1 rfl
  obtain ⟨_, _, hb2, he2⟩ :=
    failing_step s1 name A2 E2 opts t2 u2 s1.breakers hcb hce hcbo2 he1 hA2
  have hb2e : s2.breakers = alSet s0.breakers name ⟨2, u2, .closed, 5, 60000⟩ := by
    rw [hb2, updateCB_of_some s1.breakers name u2 _ hl1, if_neg (by norm_num), hb1e,
      alSet_alSet]
  have hl2 : alGet s2.breakers name = some ⟨2, u2, .closed, 5, 60000⟩ := by
    rw [hb2e]
    exact alGet_alSet_self _ _ _
  have hcbo3 : isCircuitBreakerOpen s2.breakers name t3 = (false, s2.breakers) :=
    isCBO_of_closed _ _ _ _ hl2 rfl
  obtain ⟨_, _, hb3, he3⟩ :=
    failing_step s2 name A3 E3 opts t3 u3 s2.breakers hcb hce hcbo3 he2 hA3
  have hb3e : s3.breakers = alSet s0.breakers name ⟨3, u3, .closed, 5, 60000⟩ := by
    rw [hb3, updateCB_of_some s2.breakers name u3 _ hl2, if_neg (by norm_num), hb2e,
      alSet_alSet]
  have hl3 : alGet s3.breakers name = some ⟨3, u3, .closed, 5, 60000⟩ := by
    rw [hb3e]
    exact alGet_alSet_self _ _ _
  have hcbo4 : isCircuitBreakerOpen s3.breakers name t4 = (false, s3.breakers) :=
    isCBO_of_closed _ _ _ _ hl3 rfl
  obtain ⟨_, _, hb4, he4⟩ :=
    failing_step s3 name A4 E4 opts t4 u4 s3.breakers hcb hce hcbo4 he3 hA4
  have hb4e : s4.breakers = alSet s0.breakers name ⟨4, u4, .closed, 5, 60000⟩ := by
    rw [hb4, updateCB_of_some s3.breakers name u4 _ hl3, if_neg (by norm_num), hb3e,
      alSet_alSet]
  have hl4 : alGet s4.breakers name = some ⟨4, u4, .closed, 5, 60000⟩ := by
    rw [hb4e]
    exact alGet_alSet_self _ _ _
  have hcbo5 : isCircuitBreakerOpen s4.breakers name t5 = (false, s4.breakers) :=
    isCBO_of_closed _ _ _ _ hl4 rfl
  obtain ⟨_, _, hb5, he5⟩ :=
    failing_step s4 name A5 E5 opts t5 u5 s4.breakers hcb hce hcbo5 he4 hA5
  have hb5e : s5.breakers = alSet s0.breakers name ⟨5, u5, .open, 5, 60000⟩ := by
    rw [hb5, updateCB_of_some s4.breakers name u5 _ hl4, if_pos (by norm_num), hb4e,
      alSet_alSet]
  have hl5 : alGet s5.breakers name = some ⟨5, u5, .open, 5, 60000⟩ := by
    rw [hb5e]
    exact alGet_alSet_self _ _ _
  obtain ⟨r1, r2, _, _, _⟩ :=
    optimize_reject s5 name A6 opts t6 u6 _ hcb hl5 rfl hcool
  exact ⟨hl5, r1, r2⟩

/-- Witness for C2: after the five failures the breaker for X is OPEN with
five failures stamped at 50 ms, and the sixth invoke at 60050 ms (cooldown
still unexpired) is rejected without calling its would-succeed operation. -/
theorem C2_witness :
    alGet c2s5.breakers "X" = some ⟨5, 50, .open, 5, 60000⟩ ∧
    (optimizeAPICall c2s5 "X" (fun _ => .ok (.vNum 9)) {} 60050 60050).result =
      .error (circuitOpenMsg "X") ∧
    (optimizeAPICall c2s5 "X" (fun _ => .ok (.vNum 9)) {} 60050 60050).opCalls = 0 := by
  have h := C2_breaker_trip c5W "X" c2fail c2fail c2fail c2fail c2fail
    (fun _ => .ok (.vNum 9)) (fun _ => "boom") (fun _ => "boom") (fun _ => "boom")
    (fun _ => "boom") (fun _ => "boom") 10 10 20 20 30 30 40 40 50 50 60050 60050
    rfl rfl (fun j => rfl) (fun j => rfl) (fun j => rfl) (fun j => rfl) (fun j => rfl)
    (by decide)
  exact h

end APIPerformanceOptimizer
